import Mathlib

/-!
Verification development for the Job-Scheduler-Microservice repository.

The Go sources are embedded shallowly:

* `internal/models` (job_execution model, `part_005`; `job.go`) — the
  `JobExecution` record, its `MarkAs*` lifecycle methods, the `JobType`
  constants and `IsValidJobType`.
* `internal/config/config.go` (second compilation unit, package
  `scheduler`) — `NewJobExecutor`'s executor registry,
  `JobExecutor.ExecuteJob` and `JobExecutor.executeJobWithContext`.
* `internal/scheduler/scheduler.go` — `Scheduler.AddJob`, the trigger
  bookkeeping maps, `createJobFunction`, `Start`/`Stop` and
  `reloadJobsPeriodically`.

Conventions: Go `time.Now()` results are threaded in as explicit `Nat`
timestamps; `uuid.UUID` is modelled as `Nat`; a Go `error` result is
`Option String` (`none` = nil error, `some msg` = non-nil error with that
message); external collaborators (the execution store, the cron expression
parser) are oracles passed in as parameters, since their code lives outside
this repository.
-/

namespace JobSchedulerModel

/-! ## models: ExecutionStatus and JobExecution (src/unnamed/part_005) -/

/-- Embedding of `models.ExecutionStatus` (part_005 lines 11-19). -/
inductive ExecutionStatus where
  | pending
  | running
  | completed
  | failed
  | cancelled
deriving DecidableEq, Repr

/-- Embedding of `models.JobExecution` (part_005 lines 22-45).
`startedAt = none` models the Go zero `time.Time` (the `IsZero` check);
gorm metadata (`CreatedAt`, the `Job` relationship) carries no logic and is
omitted. -/
structure JobExecution where
  id : Nat
  jobId : Nat
  startedAt : Option Nat
  completedAt : Option Nat
  status : ExecutionStatus
  errorMessage : Option String
  executionDuration : Option Int
deriving DecidableEq, Repr

namespace JobExecution

/-- Embedding of `JobExecution.MarkAsRunning` (part_005 lines 68-71):
sets status to running and records the start time. -/
def markAsRunning (je : JobExecution) (now : Nat) : JobExecution :=
  { je with status := .running, startedAt := some now }

/-- Embedding of `JobExecution.MarkAsCompleted` (part_005 lines 74-84):
sets status, completion time, and — when a start time was recorded —
the duration. -/
def markAsCompleted (je : JobExecution) (now : Nat) : JobExecution :=
  { je with
    status := .completed
    completedAt := some now
    executionDuration :=
      match je.startedAt with
      | some s => some ((now : Int) - (s : Int))
      | none => je.executionDuration }

/-- Embedding of `JobExecution.MarkAsFailed` (part_005 lines 87-98). -/
def markAsFailed (je : JobExecution) (now : Nat) (errorMsg : String) : JobExecution :=
  { je with
    status := .failed
    completedAt := some now
    errorMessage := some errorMsg
    executionDuration :=
      match je.startedAt with
      | some s => some ((now : Int) - (s : Int))
      | none => je.executionDuration }

/-- Embedding of `JobExecution.MarkAsCancelled` (part_005 lines 101-111). -/
def markAsCancelled (je : JobExecution) (now : Nat) : JobExecution :=
  { je with
    status := .cancelled
    completedAt := some now
    executionDuration :=
      match je.startedAt with
      | some s => some ((now : Int) - (s : Int))
      | none => je.executionDuration }

/-- Embedding of `JobExecution.IsCompleted` (part_005 lines 114-118):
true on the three terminal statuses. -/
def isCompleted (je : JobExecution) : Bool :=
  je.status = ExecutionStatus.completed ||
  je.status = ExecutionStatus.failed ||
  je.status = ExecutionStatus.cancelled

end JobExecution

/-- A status is terminal when `IsCompleted` would report it so. -/
def ExecutionStatus.isTerminal : ExecutionStatus → Bool
  | .completed => true
  | .failed => true
  | .cancelled => true
  | _ => false

/-! ## models: JobType and Job (src/internal/models/job.go) -/

/-- Embedding of the `models.JobType` constant `JobTypeEmailNotification`. -/
def JobTypeEmailNotification : String := "email_notification"

/-- Embedding of the `models.JobType` constant `JobTypeDataProcessing`. -/
def JobTypeDataProcessing : String := "data_processing"

/-- Embedding of the `models.JobType` constant `JobTypeReportGeneration`. -/
def JobTypeReportGeneration : String := "report_generation"

/-- Embedding of the `models.JobType` constant `JobTypeHealthCheck`. -/
def JobTypeHealthCheck : String := "health_check"

/-- Embedding of `models.IsValidJobType` (job.go lines 100-107): a switch
over the four declared job-kind constants. -/
def IsValidJobType (jobType : String) : Bool :=
  jobType = JobTypeEmailNotification ||
  jobType = JobTypeDataProcessing ||
  jobType = JobTypeReportGeneration ||
  jobType = JobTypeHealthCheck

/-- Embedding of `models.Job` (job.go lines 59-83), restricted to the
fields the scheduler core reads: identifier, name, schedule expression,
kind tag, active flag. `Config`, `Description` and the gorm timestamp
metadata carry no scheduling logic. -/
structure Job where
  id : Nat
  name : String
  schedule : String
  jobType : String
  isActive : Bool
deriving DecidableEq, Repr

/-! ## scheduler package: the executor registry (config.go lines 218-238) -/

/-- The four concrete `services.JobExecutor` implementations that
`NewJobExecutor` instantiates (config.go lines 224-229). Their own
business logic is an external capability; only their identity matters to
the dispatch. -/
inductive RegisteredExecutor where
  | emailNotificationExecutor
  | dataProcessingExecutor
  | reportGenerationExecutor
  | healthCheckExecutor
deriving DecidableEq, Repr

/-- Embedding of the `executors` map literal built by `NewJobExecutor`
(config.go lines 224-229): a lookup from the job-kind tag to the
registered capability. -/
def newJobExecutorRegistry (jobType : String) : Option RegisteredExecutor :=
  if jobType = JobTypeEmailNotification then some .emailNotificationExecutor
  else if jobType = JobTypeDataProcessing then some .dataProcessingExecutor
  else if jobType = JobTypeReportGeneration then some .reportGenerationExecutor
  else if jobType = JobTypeHealthCheck then some .healthCheckExecutor
  else none

/-! ## scheduler package: executeJobWithContext (config.go lines 309-395)

The executor's collaborators are oracles: the execution store's two
`Update` calls may each fail with a message, the capability's
`Execute(job)` call ends in nil, a Go error, or a panic, and the
`ctx.Done()` pre-check (lines 355-360) may observe an already-expired
context. -/

/-- Outcome of the capability call `executor.Execute(job)` at config.go
line 363: nil error, non-nil error, or a runtime panic carrying a value
rendered as a string. -/
inductive CapOutcome where
  | ok
  | err (msg : String)
  | panics (msg : String)
deriving DecidableEq, Repr

/-- Oracle bundle for one run of `executeJobWithContext`: store results,
context state, capability behaviour, and the two `time.Now()` readings
(at `MarkAsRunning` and at the terminal mark). -/
structure ExecEnv where
  updateRunningResult : Option String
  updateFinalResult : Option String
  ctxDoneBeforeExec : Bool
  capOutcome : CapOutcome
  tRun : Nat
  tEnd : Nat
deriving Repr

/-- The message Go builds at config.go line 345:
`fmt.Errorf("job execution panicked: %v", r)`. -/
def goPanicMsg (r : String) : String := "job execution panicked: " ++ r

/-- The message Go builds at config.go line 329 for a missing executor. -/
def noExecutorMsg (jobType : String) : String :=
  "no executor found for job type: " ++ jobType

/-- The recover-guarded block of `executeJobWithContext` (config.go lines
341-364): the context pre-check, then the capability call with panic
converted into `executionErr`. Returns the resulting `executionErr`
together with whether `executor.Execute` was actually invoked. The
string "context deadline exceeded" stands for `ctx.Err()` at line 357. -/
def capPhase (env : ExecEnv) : Option String × Bool :=
  if env.ctxDoneBeforeExec then (some "context deadline exceeded", false)
  else
    match env.capOutcome with
    | .ok => (none, true)
    | .err m => (some m, true)
    | .panics r => (some (goPanicMsg r), true)

/-- The result-recording tail of `executeJobWithContext` (config.go lines
366-394): mark the record failed or completed from `executionErr`, then
persist; a persistence failure replaces the returned error (line 391),
leaving the in-memory record untouched. Returns (returned error, record). -/
def finalizePhase (env : ExecEnv) (executionErr : Option String)
    (execution : JobExecution) : Option String × JobExecution :=
  let execution :=
    match executionErr with
    | some m => execution.markAsFailed env.tEnd m
    | none => execution.markAsCompleted env.tEnd
  match env.updateFinalResult with
  | some uerr => (some ("failed to update execution status: " ++ uerr), execution)
  | none => (executionErr, execution)

/-- Result of one `executeJobWithContext` run: the Go error returned, the
final in-memory record, whether `executor.Execute` was invoked, and
whether the "no executor found" branch (config.go lines 327-338) fired. -/
structure ExecOutcome where
  ret : Option String
  record : JobExecution
  capInvoked : Bool
  unknownKindBranch : Bool
deriving Repr

/-- Embedding of `JobExecutor.executeJobWithContext` (config.go lines
309-395), run sequentially in its own goroutine: mark running (update
failure only logged, line 312-317), dispatch on the registry, run the
capability under the recover boundary, record and persist the outcome. -/
def executeJobWithContext (registry : String → Option RegisteredExecutor)
    (env : ExecEnv) (job : Job) (execution : JobExecution) : ExecOutcome :=
  let execution := execution.markAsRunning env.tRun
  match registry job.jobType with
  | none =>
      let msg := noExecutorMsg job.jobType
      let execution := execution.markAsFailed env.tEnd msg
      { ret := some msg, record := execution
        capInvoked := false, unknownKindBranch := true }
  | some _ =>
      let r := capPhase env
      let fin := finalizePhase env r.1 execution
      { ret := fin.1, record := fin.2
        capInvoked := r.2, unknownKindBranch := false }

/-! ## scheduler package: ExecuteJob (config.go lines 241-306) -/

/-- The concurrency-limit message built at config.go line 251. -/
def concurrencyLimitMsg (maxConcurrent : Nat) : String :=
  "maximum concurrent jobs (" ++ toString maxConcurrent ++ ") reached"

/-- Oracle bundle for one `ExecuteJob` call: how many semaphore permits
are already held at entry, the `Create` store result, whether the
10-minute deadline (config.go line 283) expires before the worker
goroutine delivers on `errChan`, the `time.Now()` reading of the timeout
mark, the fresh `uuid.New()`, and the inner oracles. -/
structure ExecuteEnv where
  heldPermits : Nat
  createResult : Option String
  timedOut : Bool
  tTimeout : Nat
  newId : Nat
  inner : ExecEnv
deriving Repr

/-- Result of one `ExecuteJob` call: return value, record state at the
moment the call returns (`none` when no record object was built, i.e. the
admission-rejected path), and flags for which store/tracker effects
happened. On every path that added a Run Tracker entry, the deferred
delete (lines 276-280) has run by return time. -/
structure ExecuteResult where
  ret : Option String
  recordAtReturn : Option JobExecution
  createCalled : Bool
  trackerWasAdded : Bool
  capInvoked : Bool
deriving Repr

/-- Embedding of `JobExecutor.ExecuteJob` (config.go lines 241-306).
The semaphore send at line 244 succeeds exactly when fewer than
`maxConcurrent` permits are held (a buffered channel of that capacity);
the `default` branch (lines 246-252) rejects without blocking. On the
timeout branch (lines 296-305) the record has been marked running by the
worker (line 311) before the deadline passes mid-`Execute`; the main
goroutine then marks it failed and returns. -/
def ExecuteJob (registry : String → Option RegisteredExecutor)
    (maxConcurrent : Nat) (env : ExecuteEnv) (job : Job) : ExecuteResult :=
  if env.heldPermits < maxConcurrent then
    let execution : JobExecution :=
      { id := env.newId, jobId := job.id, startedAt := none,
        completedAt := none, status := .pending,
        errorMessage := none, executionDuration := none }
    match env.createResult with
    | some cerr =>
        { ret := some ("failed to create execution record: " ++ cerr)
          recordAtReturn := some execution
          createCalled := true, trackerWasAdded := false, capInvoked := false }
    | none =>
        if env.timedOut then
          let execution := execution.markAsRunning env.inner.tRun
          let execution := execution.markAsFailed env.tTimeout "Job execution timed out"
          { ret := some "job execution timed out"
            recordAtReturn := some execution
            createCalled := true, trackerWasAdded := true, capInvoked := true }
        else
          let outcome := executeJobWithContext registry env.inner job execution
          { ret := outcome.ret
            recordAtReturn := some outcome.record
            createCalled := true, trackerWasAdded := true
            capInvoked := outcome.capInvoked }
  else
    { ret := some (concurrencyLimitMsg maxConcurrent)
      recordAtReturn := none
      createCalled := false, trackerWasAdded := false, capInvoked := false }

/-- The abandoned worker goroutine's continuation after a timeout return:
`executeJobWithContext` is still executing inside `executor.Execute`
(line 363) when `ExecuteJob` returns at line 304; nothing stops the
goroutine, so when the capability finishes, lines 366-394 run on the
shared record — the same record the main goroutine already marked failed.
This function is that continuation: `capPhase` finishing plus
`finalizePhase` applied to the record as left by the timeout path. -/
def timeoutAftermathRecord (env : ExecuteEnv) (job : Job) : JobExecution :=
  let execution : JobExecution :=
    { id := env.newId, jobId := job.id, startedAt := none,
      completedAt := none, status := .pending,
      errorMessage := none, executionDuration := none }
  let execution := execution.markAsRunning env.inner.tRun
  let execution := execution.markAsFailed env.tTimeout "Job execution timed out"
  (finalizePhase env.inner (capPhase env.inner).1 execution).2

/-! ## scheduler package: trigger table and AddJob (scheduler.go)

The robfig cron engine is external to this repository; it is embedded as
a table of live entries, with `AddFunc` parameterized by a validity oracle
`valid : String -> Bool` standing for whether the engine's five-field
parser accepts the schedule expression. Each live entry is tagged with the
identifier of the job whose callback closure it holds, so that "live
registrations for a given job" is observable in the model. -/

/-- State of the external cron engine: live entries `(entryID, jobID)`
plus the next fresh entry id (robfig cron allocates increasing ids). -/
structure CronState where
  entries : List (Nat × Nat)
  nextId : Nat
deriving Repr

/-- Embedding of `cron.Remove(entryID)`: drops the entry with that id. -/
def CronState.remove (c : CronState) (eid : Nat) : CronState :=
  { c with entries := c.entries.filter (fun p => p.1 ≠ eid) }

/-- Embedding of `cron.AddFunc(schedule, jobFunc)` called from
`Scheduler.AddJob` (scheduler.go line 137): if the parser accepts the
expression, a fresh entry registered for the job is added and its id
returned; otherwise an error is returned and the engine is unchanged. -/
def CronState.addFunc (valid : String → Bool) (c : CronState)
    (schedule : String) (jobId : Nat) : Option Nat × CronState :=
  if valid schedule then
    (some c.nextId, { entries := (c.nextId, jobId) :: c.entries, nextId := c.nextId + 1 })
  else
    (none, c)

/-- The live cron registrations whose callback belongs to `jobId`. -/
def CronState.liveFor (c : CronState) (jobId : Nat) : List (Nat × Nat) :=
  c.entries.filter (fun p => p.2 = jobId)

/-- State owned by the `Scheduler` struct that `AddJob` touches: the
cron engine plus the `scheduledJobs` map (job id -> cron entry id,
scheduler.go line 29). -/
structure SchedState where
  cron : CronState
  scheduledJobs : Nat → Option Nat

/-- The prior-entry removal at the head of `Scheduler.AddJob`
(scheduler.go lines 128-131): if the map holds an entry id for this job,
remove the registration from the engine and delete the map binding. -/
def removePrior (s : SchedState) (jobId : Nat) : SchedState :=
  match s.scheduledJobs jobId with
  | some eid =>
      { cron := s.cron.remove eid
        scheduledJobs := fun j => if j = jobId then none else s.scheduledJobs j }
  | none => s

/-- Embedding of `Scheduler.AddJob` (scheduler.go lines 118-153).
Inactive jobs are skipped (lines 122-125). Otherwise any existing entry
for the identifier is removed from the engine and the map first (lines
128-131); then `AddFunc` is attempted — on parser failure the method
returns the wrapped error with the removal already done (lines 137-140),
on success the fresh entry id is stored (line 143). -/
def AddJob (valid : String → Bool) (s : SchedState) (job : Job) :
    Option String × SchedState :=
  if !job.isActive then (none, s)
  else
    let s : SchedState := removePrior s job.id
    match s.cron.addFunc valid job.schedule job.id with
    | (none, c) =>
        (some "failed to add job to scheduler: invalid schedule", { s with cron := c })
    | (some eid, c) =>
        (none,
         { cron := c
           scheduledJobs := fun j => if j = job.id then some eid else s.scheduledJobs j })

/-- The scheduler state a fresh `NewScheduler` holds: empty trigger table,
empty cron engine (scheduler.go lines 51-60). -/
def emptySchedState : SchedState :=
  { cron := { entries := [], nextId := 0 }, scheduledJobs := fun _ => none }

/-- Well-formedness of the scheduler's bookkeeping, relating the
`scheduledJobs` map to the engine's live entries: every map binding points
at a live entry for that job, every live entry is the one its job's map
binding points at, and all recorded ids are below the engine's fresh id. -/
structure SchedInv (s : SchedState) : Prop where
  mapSound : ∀ j e, s.scheduledJobs j = some e → (e, j) ∈ s.cron.entries
  entriesSound : ∀ p ∈ s.cron.entries, s.scheduledJobs p.2 = some p.1
  entriesFresh : ∀ p ∈ s.cron.entries, p.1 < s.cron.nextId
  entriesNodup : (s.cron.entries.map Prod.fst).Nodup

/-! ## scheduler package: the firing callback (scheduler.go lines 283-303)

`createJobFunction(job)` returns a closure capturing the *pointer*
`job *models.Job`; when the trigger later fires, the closure evaluates
`jobCopy := *job` — a dereference at firing time — and passes `&jobCopy`
to `ExecuteJob`. The pointer is modelled as an address into a heap of
`Job` values; mutations of the pointed-to definition between registration
and firing are heap updates at that address. -/

/-- A heap of job-definition values, indexed by address. -/
def JobHeap : Type := Nat → Job

/-- Mutating the job definition stored at address `a`. -/
def JobHeap.write (h : JobHeap) (a : Nat) (v : Job) : JobHeap :=
  fun x => if x = a then v else h x

/-- Embedding of the closure `createJobFunction` returns (scheduler.go
lines 284-302): it holds the captured pointer, nothing else. -/
structure JobFunc where
  addr : Nat

/-- Embedding of `Scheduler.createJobFunction(job)` itself (line 283):
packaging the pointer argument into the closure. -/
def createJobFunction (addr : Nat) : JobFunc := { addr := addr }

/-- The definition value the callback passes to `ExecuteJob` when the
trigger fires: `jobCopy := *job` (scheduler.go line 286) evaluated against
the heap as it stands at firing time. -/
def firedJobValue (h : JobHeap) (f : JobFunc) : Job := h f.addr

/-! ## scheduler package: lifecycle and the reconciliation loop
(scheduler.go lines 34-115 and 209-225)

`NewScheduler` creates one `context.WithCancel` context (line 39) that is
never recreated. `Start` spawns `reloadJobsPeriodically`, whose loop
returns as soon as `s.ctx.Done()` is closed (lines 216-218) — so a
goroutine spawned after the context was cancelled exits before its first
tick. `Stop` calls `s.cancel()` (line 103), waits for the goroutine
(line 110), and clears `isRunning`. -/

/-- The lifecycle-relevant scheduler state: whether the shared context
has been cancelled, whether the scheduler reports itself running, and
whether a reconciliation goroutine is alive (will still process ticks). -/
structure SchedLife where
  ctxCancelled : Bool
  isRunning : Bool
  reconcilerAlive : Bool
deriving DecidableEq, Repr

/-- Embedding of `NewScheduler` (scheduler.go lines 34-61): fresh live
context, not running, no reconciler spawned yet. -/
def newSchedulerLife : SchedLife :=
  { ctxCancelled := false, isRunning := false, reconcilerAlive := false }

/-- Embedding of `Scheduler.Start` (scheduler.go lines 64-89): fails if
already running; otherwise marks running and spawns
`reloadJobsPeriodically` — which stays alive only if the shared context
has not already been cancelled (its select at lines 216-218 returns
immediately on a closed `Done` channel). -/
def SchedLife.start (s : SchedLife) : Option String × SchedLife :=
  if s.isRunning then (some "scheduler is already running", s)
  else
    (none,
     { s with isRunning := true, reconcilerAlive := !s.ctxCancelled })

/-- Embedding of `Scheduler.Stop` (scheduler.go lines 92-115): no-op when
not running; otherwise cancels the shared context (permanently — it is
never recreated), waits until the reconciliation goroutine has returned,
and clears the running flag. -/
def SchedLife.stop (s : SchedLife) : SchedLife :=
  if !s.isRunning then s
  else { ctxCancelled := true, isRunning := false, reconcilerAlive := false }

/-! ## scheduler package: the admission gate and run tracker under
concurrency (config.go lines 241-280)

`ExecuteJob` may be called from many goroutines at once. Its effect on the
shared state — the buffered `semaphore` channel of capacity N and the
`runningJobs` map — is modelled as a labelled transition system: each
concurrent call is a task walking through the phases of the function body,
and the scheduler interleaves the tasks' atomic steps arbitrarily.

Phase map to the source:
* `idle` — before the `select` at line 243;
* `holding` — permit acquired (line 244), release deferred (line 245),
  no map entry yet;
* `tracked` — entry inserted into `runningJobs` (lines 271-273), delete
  deferred (lines 276-280);
* `untracked` — the deferred delete has run (defers run LIFO, so the
  delete at lines 276-280 runs before the release at line 245); also the
  Create-failure path (lines 262-268), which returns while holding the
  permit without ever inserting an entry;
* `done` — the deferred release (line 245) has run;
* `rejected` — the `default` branch (lines 246-252). -/

/-- Phase of one concurrent `ExecuteJob` call. -/
inductive TaskPhase where
  | idle
  | holding
  | tracked
  | untracked
  | done
  | rejected
deriving DecidableEq, Repr

/-- Whether a task in this phase holds a semaphore permit. -/
def TaskPhase.holdsPermit : TaskPhase → Bool
  | .holding => true
  | .tracked => true
  | .untracked => true
  | _ => false

/-- Shared state of `JobExecutor` as seen by concurrent `ExecuteJob`
calls: the number of permits in the semaphore channel, the key set of the
`runningJobs` map (one entry per in-flight call), and each task's phase.
`k` bounds the number of tasks considered; it is arbitrary. -/
structure GateState (k : Nat) where
  sem : Nat
  tracker : Finset (Fin k)
  phase : Fin k → TaskPhase

/-- Initial state: no permits held, empty `runningJobs`, all calls idle. -/
def initGateState (k : Nat) : GateState k :=
  { sem := 0, tracker := ∅, phase := fun _ => .idle }

/-- One atomic step of some task, as the source orders them. -/
inductive GateStep (N : Nat) {k : Nat} : GateState k → GateState k → Prop where
  | acquireOk {s : GateState k} (t : Fin k)
      (h : s.phase t = .idle) (hlt : s.sem < N) :
      GateStep N s
        { s with sem := s.sem + 1, phase := Function.update s.phase t .holding }
  | acquireFull {s : GateState k} (t : Fin k)
      (h : s.phase t = .idle) (hge : ¬ s.sem < N) :
      GateStep N s { s with phase := Function.update s.phase t .rejected }
  | track {s : GateState k} (t : Fin k) (h : s.phase t = .holding) :
      GateStep N s
        { s with tracker := insert t s.tracker
                 phase := Function.update s.phase t .tracked }
  | createFail {s : GateState k} (t : Fin k) (h : s.phase t = .holding) :
      GateStep N s { s with phase := Function.update s.phase t .untracked }
  | untrack {s : GateState k} (t : Fin k) (h : s.phase t = .tracked) :
      GateStep N s
        { s with tracker := s.tracker.erase t
                 phase := Function.update s.phase t .untracked }
  | release {s : GateState k} (t : Fin k) (h : s.phase t = .untracked) :
      GateStep N s
        { s with sem := s.sem - 1, phase := Function.update s.phase t .done }

/-- States reachable from the initial state by interleaved steps. -/
inductive GateReachable (N k : Nat) : GateState k → Prop where
  | init : GateReachable N k (initGateState k)
  | step {s s' : GateState k} :
      GateReachable N k s → GateStep N s s' → GateReachable N k s'

/-- The tasks currently holding a permit (a function of the phase map). -/
def permitHolders {k : Nat} (phase : Fin k → TaskPhase) : Finset (Fin k) :=
  Finset.univ.filter (fun t => (phase t).holdsPermit = true)

/-- The tasks currently in the `tracked` phase. -/
def trackedSet {k : Nat} (phase : Fin k → TaskPhase) : Finset (Fin k) :=
  Finset.univ.filter (fun t => phase t = TaskPhase.tracked)

/-- Inductive invariant: the permit count equals the number of
permit-holding tasks, the `runningJobs` key set is exactly the tasks in
the tracked phase, and the permit count never exceeds the capacity. -/
structure GateInv (N : Nat) {k : Nat} (s : GateState k) : Prop where
  semCount : s.sem = (permitHolders s.phase).card
  trackerEq : s.tracker = trackedSet s.phase
  semLe : s.sem ≤ N

/-! ## Concrete inputs used to witness or refute the claims -/

/-- A concrete active job of a declared kind. -/
def sampleJob : Job :=
  { id := 3, name := "daily-health", schedule := "0 9 * * *",
    jobType := "health_check", isActive := true }

/-- The same job definition after a mutation of its name and schedule
(what a concurrent reconciliation or a caller's update would write through
the retained pointer). -/
def sampleJobMutated : Job :=
  { id := 3, name := "daily-health-v2", schedule := "0 10 * * *",
    jobType := "health_check", isActive := true }

/-- Benign inner oracles: both store updates succeed, context live,
capability succeeds. -/
def benignExecEnv : ExecEnv :=
  { updateRunningResult := none, updateFinalResult := none,
    ctxDoneBeforeExec := false, capOutcome := .ok, tRun := 1, tEnd := 7 }

/-- One admitted, promptly-completing run: no permits held, create
succeeds, no timeout. -/
def benignExecuteEnv : ExecuteEnv :=
  { heldPermits := 0, createResult := none, timedOut := false,
    tTimeout := 5, newId := 11, inner := benignExecEnv }

/-- The run used against claim C6: everything succeeds but the 10-minute
deadline fires before the capability finishes. -/
def timeoutExecuteEnv : ExecuteEnv :=
  { benignExecuteEnv with timedOut := true }

/-- The run used against claim C7: the execution store's `Create` fails. -/
def createFailExecuteEnv : ExecuteEnv :=
  { benignExecuteEnv with createResult := some "db down" }

/-- A second run for claim C7: the job succeeds but the final `Update`
fails. -/
def finalUpdateFailExecuteEnv : ExecuteEnv :=
  { benignExecuteEnv with
    inner := { benignExecEnv with updateFinalResult := some "db down" } }

/-- The run used to witness claim C1: the health-check capability panics. -/
def panicExecuteEnv : ExecuteEnv :=
  { benignExecuteEnv with
    inner := { benignExecEnv with capOutcome := .panics "nil pointer dereference" } }

/-- A concrete stand-in for the cron parser's verdicts: accepts the two
well-formed five-field expressions used by the sample jobs and rejects
everything else (robfig's five-field parser accepts those and rejects
`"not a cron"`). -/
def sampleValid (schedule : String) : Bool :=
  decide (schedule = "* * * * *") || decide (schedule = "0 9 * * *")

/-- The sample job re-added with a schedule the parser rejects. -/
def sampleJobBadSchedule : Job :=
  { id := 3, name := "daily-health", schedule := "not a cron",
    jobType := "health_check", isActive := true }

/-- One call arriving while a capacity-1 gate is fully occupied. -/
def fullExecuteEnv : ExecuteEnv := { benignExecuteEnv with heldPermits := 1 }

/-- A freshly created pending execution record for the sample job. -/
def sampleExecution : JobExecution :=
  { id := 11, jobId := 3, startedAt := none, completedAt := none,
    status := .pending, errorMessage := none, executionDuration := none }

/-- The machine state reached from the initial gate state after one task
acquires a permit. -/
def c2State1 : GateState 2 :=
  { initGateState 2 with
    sem := (initGateState 2).sem + 1
    phase := Function.update (initGateState 2).phase 0 .holding }

/-- The machine state after that task also inserts its run-tracker
entry. -/
def c2State2 : GateState 2 :=
  { c2State1 with
    tracker := insert 0 c2State1.tracker
    phase := Function.update c2State1.phase 0 .tracked }

lemma filter_phase_update {k : Nat} (f : Fin k → TaskPhase) (t : Fin k)
    (v : TaskPhase) (P : TaskPhase → Prop) [DecidablePred P] :
    (Finset.univ.filter fun x : Fin k => P (Function.update f t v x)) =
      if P v then insert t ((Finset.univ.filter fun x : Fin k => P (f x)).erase t)
      else (Finset.univ.filter fun x : Fin k => P (f x)).erase t := by
  by_cases hv : P v
  · simp only [if_pos hv]
    ext x
    by_cases hx : x = t
    · subst hx
      simp [Function.update_same, hv]
    · simp [Function.update_noteq hx, hx]
  · simp only [if_neg hv]
    ext x
    by_cases hx : x = t
    · subst hx
      simp [Function.update_same, hv]
    · simp [Function.update_noteq hx, hx]

lemma permitHolders_update_pos {k : Nat} (f : Fin k → TaskPhase) (t : Fin k)
    (v : TaskPhase) (hv : v.holdsPermit = true) :
    permitHolders (Function.update f t v) = insert t ((permitHolders f).erase t) := by
  have h := filter_phase_update f t v (fun p => p.holdsPermit = true)
  rw [if_pos hv] at h
  exact h

lemma permitHolders_update_neg {k : Nat} (f : Fin k → TaskPhase) (t : Fin k)
    (v : TaskPhase) (hv : ¬ v.holdsPermit = true) :
    permitHolders (Function.update f t v) = (permitHolders f).erase t := by
  have h := filter_phase_update f t v (fun p => p.holdsPermit = true)
  rw [if_neg hv] at h
  exact h

lemma trackedSet_update_pos {k : Nat} (f : Fin k → TaskPhase) (t : Fin k)
    (v : TaskPhase) (hv : v = TaskPhase.tracked) :
    trackedSet (Function.update f t v) = insert t ((trackedSet f).erase t) := by
  have h := filter_phase_update f t v (fun p => p = TaskPhase.tracked)
  rw [if_pos hv] at h
  exact h

lemma trackedSet_update_neg {k : Nat} (f : Fin k → TaskPhase) (t : Fin k)
    (v : TaskPhase) (hv : ¬ v = TaskPhase.tracked) :
    trackedSet (Function.update f t v) = (trackedSet f).erase t := by
  have h := filter_phase_update f t v (fun p => p = TaskPhase.tracked)
  rw [if_neg hv] at h
  exact h

lemma mem_permitHolders {k : Nat} {f : Fin k → TaskPhase} {t : Fin k} :
    t ∈ permitHolders f ↔ (f t).holdsPermit = true := by
  simp [permitHolders]

lemma mem_trackedSet {k : Nat} {f : Fin k → TaskPhase} {t : Fin k} :
    t ∈ trackedSet f ↔ f t = TaskPhase.tracked := by
  simp [trackedSet]

lemma gateInv_init (N k : Nat) : GateInv N (initGateState k) := by
  refine ⟨?_, ?_, ?_⟩
  · simp [initGateState, permitHolders, TaskPhase.holdsPermit]
  · simp [initGateState, trackedSet]
  · simp [initGateState]

lemma gateInv_step {N k : Nat} {s s' : GateState k}
    (hInv : GateInv N s) (hstep : GateStep N s s') : GateInv N s' := by
  obtain ⟨hsem, htr, hle⟩ := hInv
  cases hstep with
  | acquireOk t h hlt =>
      have hnot : t ∉ permitHolders s.phase := by
        simp [mem_permitHolders, h, TaskPhase.holdsPermit]
      have hnotT : t ∉ trackedSet s.phase := by
        simp [mem_trackedSet, h]
      refine ⟨?_, ?_, hlt⟩
      · show s.sem + 1 = (permitHolders (Function.update s.phase t .holding)).card
        rw [permitHolders_update_pos s.phase t .holding rfl,
            Finset.erase_eq_of_not_mem hnot,
            Finset.card_insert_of_not_mem hnot, hsem]
      · show s.tracker = trackedSet (Function.update s.phase t .holding)
        rw [trackedSet_update_neg s.phase t .holding (by decide),
            Finset.erase_eq_of_not_mem hnotT]
        exact htr
  | acquireFull t h hge =>
      have hnot : t ∉ permitHolders s.phase := by
        simp [mem_permitHolders, h, TaskPhase.holdsPermit]
      have hnotT : t ∉ trackedSet s.phase := by
        simp [mem_trackedSet, h]
      refine ⟨?_, ?_, hle⟩
      · show s.sem = (permitHolders (Function.update s.phase t .rejected)).card
        rw [permitHolders_update_neg s.phase t .rejected (by decide),
            Finset.erase_eq_of_not_mem hnot]
        exact hsem
      · show s.tracker = trackedSet (Function.update s.phase t .rejected)
        rw [trackedSet_update_neg s.phase t .rejected (by decide),
            Finset.erase_eq_of_not_mem hnotT]
        exact htr
  | track t h =>
      have hmem : t ∈ permitHolders s.phase := by
        simp [mem_permitHolders, h, TaskPhase.holdsPermit]
      have hnotT : t ∉ trackedSet s.phase := by
        simp [mem_trackedSet, h]
      refine ⟨?_, ?_, hle⟩
      · show s.sem = (permitHolders (Function.update s.phase t .tracked)).card
        rw [permitHolders_update_pos s.phase t .tracked rfl,
            Finset.insert_erase hmem]
        exact hsem
      · show insert t s.tracker = trackedSet (Function.update s.phase t .tracked)
        rw [trackedSet_update_pos s.phase t .tracked rfl,
            Finset.erase_eq_of_not_mem hnotT, htr]
  | createFail t h =>
      have hmem : t ∈ permitHolders s.phase := by
        simp [mem_permitHolders, h, TaskPhase.holdsPermit]
      have hnotT : t ∉ trackedSet s.phase := by
        simp [mem_trackedSet, h]
      refine ⟨?_, ?_, hle⟩
      · show s.sem = (permitHolders (Function.update s.phase t .untracked)).card
        rw [permitHolders_update_pos s.phase t .untracked rfl,
            Finset.insert_erase hmem]
        exact hsem
      · show s.tracker = trackedSet (Function.update s.phase t .untracked)
        rw [trackedSet_update_neg s.phase t .untracked (by decide),
            Finset.erase_eq_of_not_mem hnotT]
        exact htr
  | untrack t h =>
      have hmem : t ∈ permitHolders s.phase := by
        simp [mem_permitHolders, h, TaskPhase.holdsPermit]
      refine ⟨?_, ?_, hle⟩
      · show s.sem = (permitHolders (Function.update s.phase t .untracked)).card
        rw [permitHolders_update_pos s.phase t .untracked rfl,
            Finset.insert_erase hmem]
        exact hsem
      · show s.tracker.erase t = trackedSet (Function.update s.phase t .untracked)
        rw [trackedSet_update_neg s.phase t .untracked (by decide), htr]
  | release t h =>
      have hmem : t ∈ permitHolders s.phase := by
        simp [mem_permitHolders, h, TaskPhase.holdsPermit]
      have hnotT : t ∉ trackedSet s.phase := by
        simp [mem_trackedSet, h]
      refine ⟨?_, ?_, ?_⟩
      · show s.sem - 1 = (permitHolders (Function.update s.phase t .done)).card
        rw [permitHolders_update_neg s.phase t .done (by decide),
            Finset.card_erase_of_mem hmem, hsem]
      · show s.tracker = trackedSet (Function.update s.phase t .done)
        rw [trackedSet_update_neg s.phase t .done (by decide),
            Finset.erase_eq_of_not_mem hnotT]
        exact htr
      · exact le_trans (Nat.sub_le _ _) hle

lemma gateInv_reachable {N k : Nat} {s : GateState k}
    (h : GateReachable N k s) : GateInv N s := by
  induction h with
  | init => exact gateInv_init N k
  | step _ hstep ih => exact gateInv_step ih hstep

lemma trackedSet_subset_permitHolders {k : Nat} (f : Fin k → TaskPhase) :
    trackedSet f ⊆ permitHolders f := by
  intro t ht
  rw [mem_trackedSet] at ht
  rw [mem_permitHolders, ht]
  rfl

/-! ## Lemmas about the trigger-table bookkeeping -/

lemma pair_eq_of_nodup_fst {l : List (Nat × Nat)} (hn : (l.map Prod.fst).Nodup)
    {p q : Nat × Nat} (hp : p ∈ l) (hq : q ∈ l) (h : p.1 = q.1) : p = q :=
  List.inj_on_of_nodup_map hn hp hq h

lemma mem_remove_iff (c : CronState) (eid : Nat) (p : Nat × Nat) :
    p ∈ (c.remove eid).entries ↔ p ∈ c.entries ∧ p.1 ≠ eid := by
  simp [CronState.remove]

lemma remove_entries_sublist (c : CronState) (eid : Nat) :
    (c.remove eid).entries.Sublist c.entries :=
  List.filter_sublist _

lemma removePrior_some {s : SchedState} {jobId eid : Nat}
    (hm : s.scheduledJobs jobId = some eid) :
    removePrior s jobId =
      { cron := s.cron.remove eid
        scheduledJobs := fun j => if j = jobId then none else s.scheduledJobs j } := by
  unfold removePrior
  rw [hm]

lemma removePrior_none {s : SchedState} {jobId : Nat}
    (hm : s.scheduledJobs jobId = none) : removePrior s jobId = s := by
  unfold removePrior
  rw [hm]

lemma removePrior_map_self (s : SchedState) (jobId : Nat) :
    (removePrior s jobId).scheduledJobs jobId = none := by
  cases hm : s.scheduledJobs jobId with
  | some eid => rw [removePrior_some hm]; simp
  | none => rw [removePrior_none hm]; exact hm

lemma removePrior_no_entry {s : SchedState} (hInv : SchedInv s) (jobId : Nat) :
    ∀ p ∈ (removePrior s jobId).cron.entries, p.2 ≠ jobId := by
  intro p hp hpj
  cases hm : s.scheduledJobs jobId with
  | some eid =>
      rw [removePrior_some hm] at hp
      obtain ⟨hmem, hne⟩ := (mem_remove_iff _ _ _).mp hp
      have hsound := hInv.entriesSound p hmem
      rw [hpj, hm] at hsound
      exact hne (Option.some.inj hsound.symm)
  | none =>
      rw [removePrior_none hm] at hp
      have hsound := hInv.entriesSound p hp
      rw [hpj, hm] at hsound
      exact Option.noConfusion hsound

lemma removePrior_inv {s : SchedState} (hInv : SchedInv s) (jobId : Nat) :
    SchedInv (removePrior s jobId) := by
  cases hm : s.scheduledJobs jobId with
  | none => rw [removePrior_none hm]; exact hInv
  | some eid =>
      rw [removePrior_some hm]
      refine ⟨?_, ?_, ?_, ?_⟩
      · intro j e hje
        by_cases hj : j = jobId
        · simp [hj] at hje
        · simp only [if_neg hj] at hje
          have hmem := hInv.mapSound j e hje
          have heid : (eid, jobId) ∈ s.cron.entries := hInv.mapSound jobId eid hm
          have hne : e ≠ eid := by
            intro h
            subst h
            have hpair := pair_eq_of_nodup_fst hInv.entriesNodup hmem heid rfl
            exact hj (congrArg Prod.snd hpair)
          exact (mem_remove_iff _ _ _).mpr ⟨hmem, hne⟩
      · intro p hp
        obtain ⟨hmem, hne⟩ := (mem_remove_iff _ _ _).mp hp
        have hsound := hInv.entriesSound p hmem
        have hpj : p.2 ≠ jobId := by
          intro h
          rw [h, hm] at hsound
          exact hne (Option.some.inj hsound.symm)
        simp only [if_neg hpj]
        exact hsound
      · intro p hp
        exact hInv.entriesFresh p ((remove_entries_sublist _ _).subset hp)
      · exact ((remove_entries_sublist s.cron eid).map Prod.fst).nodup hInv.entriesNodup

lemma schedInv_empty : SchedInv emptySchedState := by
  refine ⟨?_, ?_, ?_, ?_⟩ <;> simp [emptySchedState]

lemma addJob_eq_inactive (valid : String → Bool) (s : SchedState) (job : Job)
    (hact : job.isActive = false) : AddJob valid s job = (none, s) := by
  unfold AddJob
  rw [hact]
  rfl

lemma addJob_eq_active_valid (valid : String → Bool) (s : SchedState) (job : Job)
    (hact : job.isActive = true) (hval : valid job.schedule = true) :
    AddJob valid s job =
      (none,
       { cron := { entries := ((removePrior s job.id).cron.nextId, job.id) ::
                     (removePrior s job.id).cron.entries
                   nextId := (removePrior s job.id).cron.nextId + 1 }
         scheduledJobs := fun j =>
           if j = job.id then some (removePrior s job.id).cron.nextId
           else (removePrior s job.id).scheduledJobs j }) := by
  unfold AddJob CronState.addFunc
  rw [hact, hval]
  rfl

lemma addJob_eq_active_invalid (valid : String → Bool) (s : SchedState) (job : Job)
    (hact : job.isActive = true) (hval : valid job.schedule = false) :
    AddJob valid s job =
      (some "failed to add job to scheduler: invalid schedule",
       removePrior s job.id) := by
  unfold AddJob CronState.addFunc
  rw [hact, hval]
  rfl

lemma addJob_inv (valid : String → Bool) {s : SchedState} (hInv : SchedInv s)
    (job : Job) : SchedInv (AddJob valid s job).2 := by
  cases hact : job.isActive with
  | false => rw [addJob_eq_inactive valid s job hact]; exact hInv
  | true =>
      cases hval : valid job.schedule with
      | false => rw [addJob_eq_active_invalid valid s job hact hval]
                 exact removePrior_inv hInv job.id
      | true =>
          rw [addJob_eq_active_valid valid s job hact hval]
          have hInv1 := removePrior_inv hInv job.id
          have hno := removePrior_no_entry hInv job.id
          refine ⟨?_, ?_, ?_, ?_⟩
          · intro j e hje
            by_cases hj : j = job.id
            · subst hj
              simp only [eq_self_iff_true, if_true] at hje
              obtain rfl := Option.some.inj hje
              exact List.mem_cons_self _ _
            · simp only [if_neg hj] at hje
              exact List.mem_cons_of_mem _ (hInv1.mapSound j e hje)
          · intro p hp
            rcases List.mem_cons.mp hp with hhd | htl
            · rw [hhd]
              simp
            · have hpj : p.2 ≠ job.id := hno p htl
              simp only [if_neg hpj]
              exact hInv1.entriesSound p htl
          · intro p hp
            rcases List.mem_cons.mp hp with hhd | htl
            · rw [hhd]; exact Nat.lt_succ_self _
            · exact Nat.lt_succ_of_lt (hInv1.entriesFresh p htl)
          · refine List.nodup_cons.mpr ⟨?_, hInv1.entriesNodup⟩
            intro hmem
            rcases List.mem_map.mp hmem with ⟨p, hpmem, hpfst⟩
            have := hInv1.entriesFresh p hpmem
            omega

lemma liveFor_removePrior {s : SchedState} (hInv : SchedInv s) (jobId : Nat) :
    (removePrior s jobId).cron.liveFor jobId = [] := by
  unfold CronState.liveFor
  apply List.filter_eq_nil_iff.mpr
  intro p hp
  simpa using removePrior_no_entry hInv jobId p hp

lemma liveFor_addJob_active_valid (valid : String → Bool) {s : SchedState}
    (hInv : SchedInv s) (job : Job)
    (hact : job.isActive = true) (hval : valid job.schedule = true) :
    (AddJob valid s job).2.cron.liveFor job.id =
      [((removePrior s job.id).cron.nextId, job.id)] := by
  rw [addJob_eq_active_valid valid s job hact hval]
  unfold CronState.liveFor
  rw [List.filter_cons_of_pos (by simp)]
  rw [List.filter_eq_nil_iff.mpr ?_]
  intro p hp
  simpa using removePrior_no_entry hInv job.id p hp

/-! ## Lemmas about the executor embedding -/

lemma goPanicMsg_ne_empty (r : String) : goPanicMsg r ≠ "" := by
  intro h
  have h1 : (goPanicMsg r).length = 0 := by rw [h]; rfl
  rw [goPanicMsg, String.length_append] at h1
  have h2 : ("job execution panicked: ").length = 24 := rfl
  omega

lemma executeJobWithContext_terminal (registry : String → Option RegisteredExecutor)
    (env : ExecEnv) (job : Job) (execution : JobExecution) :
    (executeJobWithContext registry env job execution).record.status.isTerminal = true := by
  unfold executeJobWithContext capPhase finalizePhase
  cases registry job.jobType <;>
    cases env.ctxDoneBeforeExec <;>
      cases env.capOutcome <;>
        cases env.updateFinalResult <;>
          rfl

/-! ## The claims -/

/-- C1: for every job and every capability whose execute call panics, the
recover boundary inside the executor converts the panic into a normal
failure: the execution record is marked failed with the non-empty message
Go builds from the panic value, and `ExecuteJob` returns an ordinary
(non-nil) error value to the scheduler callback instead of letting the
fault propagate. -/
theorem C1_capability_panic_contained
    (registry : String → Option RegisteredExecutor) (maxConcurrent : Nat)
    (env : ExecuteEnv) (job : Job) (r : String)
    (hadm : env.heldPermits < maxConcurrent)
    (hcreate : env.createResult = none)
    (htime : env.timedOut = false)
    (hctx : env.inner.ctxDoneBeforeExec = false)
    (hreg : (registry job.jobType).isSome = true)
    (hcap : env.inner.capOutcome = .panics r) :
    ∃ rec, (ExecuteJob registry maxConcurrent env job).recordAtReturn = some rec ∧
      rec.status = .failed ∧
      rec.errorMessage = some (goPanicMsg r) ∧
      goPanicMsg r ≠ "" ∧
      ∃ e, (ExecuteJob registry maxConcurrent env job).ret = some e := by
  obtain ⟨ex, hex⟩ := Option.isSome_iff_exists.mp hreg
  simp only [ExecuteJob, if_pos hadm, hcreate, htime, executeJobWithContext,
    capPhase, finalizePhase, hctx, hcap, hex, Bool.false_eq_true, if_false]
  cases huf : env.inner.updateFinalResult with
  | none =>
      exact ⟨_, rfl, rfl, rfl, goPanicMsg_ne_empty r, _, rfl⟩
  | some uerr =>
      exact ⟨_, rfl, rfl, rfl, goPanicMsg_ne_empty r, _, rfl⟩

/-- Witness for C1 at a concrete panicking run. -/
theorem C1_witness :
    ∃ rec, (ExecuteJob newJobExecutorRegistry 10 panicExecuteEnv
        sampleJob).recordAtReturn = some rec ∧
      rec.status = .failed ∧
      rec.errorMessage = some (goPanicMsg "nil pointer dereference") ∧
      goPanicMsg "nil pointer dereference" ≠ "" ∧
      ∃ e, (ExecuteJob newJobExecutorRegistry 10 panicExecuteEnv sampleJob).ret = some e :=
  C1_capability_panic_contained newJobExecutorRegistry 10 panicExecuteEnv sampleJob
    "nil pointer dereference" (by decide) rfl rfl rfl (by decide) rfl

/-- C2: for every capacity N and every interleaving of concurrent
`ExecuteJob` calls, the number of entries in the `runningJobs` map never
exceeds N: permits are acquired before the entry is inserted and the
entry is deleted before the permit is released, on every path. -/
theorem C2_runTracker_bounded {N k : Nat} (s : GateState k)
    (h : GateReachable N k s) : s.tracker.card ≤ N := by
  obtain ⟨hsem, htr, hle⟩ := gateInv_reachable h
  rw [htr]
  calc (trackedSet s.phase).card
      ≤ (permitHolders s.phase).card :=
        Finset.card_le_card (trackedSet_subset_permitHolders s.phase)
    _ = s.sem := hsem.symm
    _ ≤ N := hle

/-- Witness for C2: a state with one tracked execution under capacity 1. -/
theorem C2_witness : c2State2.tracker.card ≤ 1 :=
  C2_runTracker_bounded c2State2
    (GateReachable.step
      (GateReachable.step GateReachable.init (GateStep.acquireOk 0 rfl (by decide)))
      (GateStep.track 0 (by decide)))

/-- C3: a call arriving while all N permits are held is rejected on the
non-blocking `default` branch: it returns the concurrency-limit error,
never calls the execution store's `Create`, and adds no run-tracker
entry. -/
theorem C3_rejected_at_capacity (registry : String → Option RegisteredExecutor)
    (N : Nat) (env : ExecuteEnv) (job : Job) (hfull : env.heldPermits = N) :
    (ExecuteJob registry N env job).ret = some (concurrencyLimitMsg N) ∧
    (ExecuteJob registry N env job).createCalled = false ∧
    (ExecuteJob registry N env job).trackerWasAdded = false ∧
    (ExecuteJob registry N env job).recordAtReturn = none := by
  have hnot : ¬ env.heldPermits < N := by omega
  simp [ExecuteJob, if_neg hnot]

/-- Witness for C3 at capacity 1 with the single permit held. -/
theorem C3_witness :
    (ExecuteJob newJobExecutorRegistry 1 fullExecuteEnv sampleJob).ret =
      some (concurrencyLimitMsg 1) ∧
    (ExecuteJob newJobExecutorRegistry 1 fullExecuteEnv sampleJob).createCalled = false ∧
    (ExecuteJob newJobExecutorRegistry 1 fullExecuteEnv sampleJob).trackerWasAdded = false ∧
    (ExecuteJob newJobExecutorRegistry 1 fullExecuteEnv sampleJob).recordAtReturn = none :=
  C3_rejected_at_capacity newJobExecutorRegistry 1 fullExecuteEnv sampleJob rfl

/-- C4 counterexample: the closure returned by `createJobFunction`
captures the pointer and dereferences it only when the trigger fires, so
a mutation of the pointed-to definition between registration and firing
changes the definition the callback executes — refuting the claim that
the callback always executes the registration-time value. -/
theorem C4_counterexample :
    firedJobValue (JobHeap.write (fun _ => sampleJob) 0 sampleJobMutated)
      (createJobFunction 0) = sampleJobMutated ∧
    sampleJobMutated ≠ sampleJob := by
  exact ⟨rfl, by decide⟩

/-- C4 amended: the callback passes to `ExecuteJob` a copy of the job
definition equal to the pointed-to value at firing time — in particular,
after a mutation of the registered definition, the callback executes the
mutated value, not the registration-time one. -/
theorem C4_amended_copy_at_firing_time (h : JobHeap) (a : Nat) (v : Job) :
    firedJobValue h (createJobFunction a) = h a ∧
    firedJobValue (JobHeap.write h a v) (createJobFunction a) = v := by
  refine ⟨rfl, ?_⟩
  simp [firedJobValue, createJobFunction, JobHeap.write]

/-- C5 amended: for an active job, `AddJob` with a parsing schedule
succeeds and leaves exactly one live registration for the identifier;
with a non-parsing schedule it returns the wrapped error and registers
nothing — but the pre-existing entry for the identifier has already been
removed, so the trigger table ends with no entry for it (not unchanged,
as the original claim stated). -/
theorem C5_add_valid_invalid (valid : String → Bool) (s : SchedState) (job : Job)
    (hInv : SchedInv s) (hact : job.isActive = true) :
    (valid job.schedule = true →
      (AddJob valid s job).1 = none ∧
      (AddJob valid s job).2.cron.liveFor job.id =
        [((removePrior s job.id).cron.nextId, job.id)] ∧
      (AddJob valid s job).2.scheduledJobs job.id =
        some (removePrior s job.id).cron.nextId) ∧
    (valid job.schedule = false →
      (AddJob valid s job).1 = some "failed to add job to scheduler: invalid schedule" ∧
      (AddJob valid s job).2.scheduledJobs job.id = none ∧
      (AddJob valid s job).2.cron.liveFor job.id = []) := by
  constructor
  · intro hval
    refine ⟨?_, liveFor_addJob_active_valid valid hInv job hact hval, ?_⟩
    · rw [addJob_eq_active_valid valid s job hact hval]
    · rw [addJob_eq_active_valid valid s job hact hval]
      simp
  · intro hval
    refine ⟨?_, ?_, ?_⟩
    · rw [addJob_eq_active_invalid valid s job hact hval]
    · rw [addJob_eq_active_invalid valid s job hact hval]
      exact removePrior_map_self s job.id
    · rw [addJob_eq_active_invalid valid s job hact hval]
      exact liveFor_removePrior hInv job.id

/-- Witness for C5: adding the sample job to an empty scheduler registers
exactly one entry. -/
theorem C5_witness :
    (AddJob sampleValid emptySchedState sampleJob).1 = none ∧
    (AddJob sampleValid emptySchedState sampleJob).2.scheduledJobs sampleJob.id =
      some 0 := by
  have h := (C5_add_valid_invalid sampleValid emptySchedState sampleJob
    schedInv_empty (by decide)).1 (by decide)
  exact ⟨h.1, h.2.2⟩

/-- C5 counterexample: with an entry already registered for the sample
job, re-adding it with a schedule the parser rejects returns the error
but leaves the trigger table *without* the pre-existing entry — the
removal at scheduler.go lines 128-131 has already run — refuting
"the Trigger Table is unchanged ... a pre-existing entry for that
identifier is still present". -/
theorem C5_counterexample :
    (AddJob sampleValid emptySchedState sampleJob).2.scheduledJobs sampleJob.id =
      some 0 ∧
    (AddJob sampleValid (AddJob sampleValid emptySchedState sampleJob).2
      sampleJobBadSchedule).1 =
      some "failed to add job to scheduler: invalid schedule" ∧
    (AddJob sampleValid (AddJob sampleValid emptySchedState sampleJob).2
      sampleJobBadSchedule).2.scheduledJobs sampleJob.id = none ∧
    (AddJob sampleValid (AddJob sampleValid emptySchedState sampleJob).2
      sampleJobBadSchedule).2.cron.liveFor sampleJob.id = [] := by
  refine ⟨rfl, rfl, rfl, rfl⟩

/-- C6 counterexample: on the timeout path the record is already in the
terminal state failed when `ExecuteJob` returns, yet the abandoned worker
goroutine, when the capability finally succeeds, re-marks the very same
record completed — a further status transition applied to a terminal
record, refuting "once a record is in a terminal state no further status
transition is ever applied to it". -/
theorem C6_counterexample :
    (∃ rec, (ExecuteJob newJobExecutorRegistry 10 timeoutExecuteEnv
        sampleJob).recordAtReturn = some rec ∧
      rec.status = .failed ∧ rec.status.isTerminal = true) ∧
    (timeoutAftermathRecord timeoutExecuteEnv sampleJob).status = .completed := by
  exact ⟨⟨_, rfl, rfl, rfl⟩, rfl⟩

/-- C6 amended: every execution record whose `Create` persisted is in a
terminal state at the moment its `ExecuteJob` call returns (failed on the
timeout path); finality can still be broken after return by the abandoned
worker on the timeout path, as the counterexample shows. -/
theorem C6_terminal_at_return (registry : String → Option RegisteredExecutor)
    (N : Nat) (env : ExecuteEnv) (job : Job)
    (hadm : env.heldPermits < N) (hcreate : env.createResult = none) :
    (ExecuteJob registry N env job).recordAtReturn.isSome = true ∧
    ∀ rec, (ExecuteJob registry N env job).recordAtReturn = some rec →
      rec.status.isTerminal = true ∧
      (env.timedOut = true → rec.status = .failed) := by
  cases htime : env.timedOut with
  | true =>
      constructor
      · simp [ExecuteJob, if_pos hadm, hcreate, htime]
      · intro rec hrec
        simp only [ExecuteJob, if_pos hadm, hcreate, htime, if_true] at hrec
        cases Option.some.inj hrec
        exact ⟨rfl, fun _ => rfl⟩
  | false =>
      constructor
      · simp [ExecuteJob, if_pos hadm, hcreate, htime]
      · intro rec hrec
        simp only [ExecuteJob, if_pos hadm, hcreate, htime, Bool.false_eq_true,
          if_false] at hrec
        cases Option.some.inj hrec
        refine ⟨executeJobWithContext_terminal registry env.inner job _, fun h => ?_⟩
        exact absurd h (by simp [htime])

/-- Witness for C6's amended theorem at a benign completed run. -/
theorem C6_witness :
    (ExecuteJob newJobExecutorRegistry 10 benignExecuteEnv
      sampleJob).recordAtReturn.isSome = true ∧
    ∀ rec, (ExecuteJob newJobExecutorRegistry 10 benignExecuteEnv
        sampleJob).recordAtReturn = some rec →
      rec.status.isTerminal = true ∧
      (benignExecuteEnv.timedOut = true → rec.status = .failed) :=
  C6_terminal_at_return newJobExecutorRegistry 10 benignExecuteEnv sampleJob
    (by decide) rfl

/-- C7 counterexample: a `Create` failure aborts the call before the
capability runs (refuting "the capability still runs"), and a final
`Update` failure makes `ExecuteJob` return the persistence error even
though the job itself completed (refuting "ExecuteJob still returns the
terminal outcome of the job"). -/
theorem C7_counterexample :
    ((ExecuteJob newJobExecutorRegistry 10 createFailExecuteEnv
        sampleJob).capInvoked = false ∧
     (ExecuteJob newJobExecutorRegistry 10 createFailExecuteEnv sampleJob).ret =
       some "failed to create execution record: db down") ∧
    ((∃ rec, (ExecuteJob newJobExecutorRegistry 10 finalUpdateFailExecuteEnv
        sampleJob).recordAtReturn = some rec ∧ rec.status = .completed) ∧
     (ExecuteJob newJobExecutorRegistry 10 finalUpdateFailExecuteEnv sampleJob).ret =
       some "failed to update execution status: db down") := by
  exact ⟨⟨rfl, by decide⟩, ⟨⟨_, rfl, rfl⟩, by decide⟩⟩

/-- C7 amended: the running-transition `Update` failure is logged and has
no effect on execution, record, or return value; a `Create` failure
aborts the call before the capability runs, returning the creation error;
a final `Update` failure leaves the in-memory record reflecting the true
outcome but replaces the returned value with the persistence error. -/
theorem C7_persistence_semantics (registry : String → Option RegisteredExecutor)
    (N : Nat) (env : ExecuteEnv) (job : Job)
    (hadm : env.heldPermits < N) (htime : env.timedOut = false)
    (hctx : env.inner.ctxDoneBeforeExec = false)
    (hreg : (registry job.jobType).isSome = true) :
    (∀ u : Option String,
       ExecuteJob registry N
         { env with inner := { env.inner with updateRunningResult := u } } job =
       ExecuteJob registry N env job) ∧
    (∀ cerr : String, env.createResult = some cerr →
       (ExecuteJob registry N env job).capInvoked = false ∧
       (ExecuteJob registry N env job).ret =
         some ("failed to create execution record: " ++ cerr)) ∧
    (env.createResult = none →
       (ExecuteJob registry N env job).capInvoked = true ∧
       (env.inner.capOutcome = .ok →
         ∃ rec, (ExecuteJob registry N env job).recordAtReturn = some rec ∧
           rec.status = .completed) ∧
       (∀ uerr : String, env.inner.updateFinalResult = some uerr →
         (ExecuteJob registry N env job).ret =
           some ("failed to update execution status: " ++ uerr)) ∧
       (env.inner.updateFinalResult = none → env.inner.capOutcome = .ok →
         (ExecuteJob registry N env job).ret = none)) := by
  obtain ⟨ex, hex⟩ := Option.isSome_iff_exists.mp hreg
  refine ⟨fun u => rfl, ?_, ?_⟩
  · intro cerr hcr
    simp [ExecuteJob, if_pos hadm, hcr]
  · intro hcr
    refine ⟨?_, ?_, ?_, ?_⟩
    · simp only [ExecuteJob, if_pos hadm, hcr, htime, Bool.false_eq_true, if_false,
        executeJobWithContext, capPhase, hctx, hex]
      cases env.inner.capOutcome <;> rfl
    · intro hok
      simp only [ExecuteJob, if_pos hadm, hcr, htime, Bool.false_eq_true, if_false,
        executeJobWithContext, capPhase, finalizePhase, hctx, hex, hok]
      cases huf : env.inner.updateFinalResult with
      | none => exact ⟨_, rfl, rfl⟩
      | some uerr => exact ⟨_, rfl, rfl⟩
    · intro uerr huf
      simp only [ExecuteJob, if_pos hadm, hcr, htime, Bool.false_eq_true, if_false,
        executeJobWithContext, capPhase, finalizePhase, hctx, hex, huf]
    · intro huf hok
      simp [ExecuteJob, if_pos hadm, hcr, htime, executeJobWithContext,
        capPhase, finalizePhase, hctx, hex, huf, hok]

/-- Witness for C7's amended theorem at a benign run. -/
theorem C7_witness :
    (ExecuteJob newJobExecutorRegistry 10 benignExecuteEnv sampleJob).capInvoked = true ∧
    (ExecuteJob newJobExecutorRegistry 10 benignExecuteEnv sampleJob).ret = none := by
  have h := (C7_persistence_semantics newJobExecutorRegistry 10 benignExecuteEnv
    sampleJob (by decide) rfl rfl (by decide)).2.2 rfl
  exact ⟨h.1, h.2.2.2 rfl rfl⟩

/-- C8: re-adding an active job (second schedule parsing) leaves exactly
one live cron registration for that identifier — the second `AddJob`
removes the first call's registration before adding its own — and the
`scheduledJobs` map binds the identifier to the fresh entry. -/
theorem C8_readd_single_registration (valid : String → Bool) (s : SchedState)
    (j1 j2 : Job) (hInv : SchedInv s) (hid : j2.id = j1.id)
    (h2a : j2.isActive = true) (h2v : valid j2.schedule = true) :
    ((AddJob valid (AddJob valid s j1).2 j2).2.cron.liveFor j1.id).length = 1 ∧
    (AddJob valid (AddJob valid s j1).2 j2).2.scheduledJobs j1.id =
      some (removePrior (AddJob valid s j1).2 j2.id).cron.nextId := by
  have hInv1 := addJob_inv valid hInv j1
  have hlive := liveFor_addJob_active_valid valid hInv1 j2 h2a h2v
  rw [hid] at hlive
  constructor
  · rw [hlive]
    rfl
  · rw [addJob_eq_active_valid valid (AddJob valid s j1).2 j2 h2a h2v]
    simp [hid.symm]

/-- Witness for C8: adding the sample job twice to an empty scheduler. -/
theorem C8_witness :
    ((AddJob sampleValid (AddJob sampleValid emptySchedState sampleJob).2
        sampleJob).2.cron.liveFor sampleJob.id).length = 1 ∧
    (AddJob sampleValid (AddJob sampleValid emptySchedState sampleJob).2
        sampleJob).2.scheduledJobs sampleJob.id =
      some (removePrior (AddJob sampleValid emptySchedState sampleJob).2
        sampleJob.id).cron.nextId :=
  C8_readd_single_registration sampleValid emptySchedState sampleJob sampleJob
    schedInv_empty rfl (by decide) (by decide)

/-- C9: evaluating the lifecycle at the failing input Start(); Stop();
Start(): the first Running period has a live reconciliation loop, but
after a restart the scheduler reports Running while the freshly spawned
reconciliation goroutine is already dead — the context cancelled by Stop
is never recreated, so the loop's select returns before its first tick. -/
theorem C9_restart_has_dead_reconciler :
    (newSchedulerLife.start.2.isRunning = true ∧
     newSchedulerLife.start.2.reconcilerAlive = true) ∧
    (newSchedulerLife.start.2.stop.start.2.isRunning = true ∧
     newSchedulerLife.start.2.stop.start.2.reconcilerAlive = false) := by
  decide

/-- C10: the registry built by `NewJobExecutor` has an entry for every
kind accepted by `IsValidJobType`, so the "no executor found" branch of
`executeJobWithContext` is unreachable for valid kinds and is taken only
for kind tags outside the declared enumeration. -/
theorem C10_registry_covers_valid_kinds :
    (∀ t, IsValidJobType t = true → (newJobExecutorRegistry t).isSome = true) ∧
    (∀ t, newJobExecutorRegistry t = none → IsValidJobType t = false) ∧
    (∀ (env : ExecEnv) (job : Job) (execution : JobExecution),
       IsValidJobType job.jobType = true →
       (executeJobWithContext newJobExecutorRegistry env job
         execution).unknownKindBranch = false) := by
  have h1 : ∀ t, IsValidJobType t = true → (newJobExecutorRegistry t).isSome = true := by
    intro t ht
    simp only [IsValidJobType, Bool.or_eq_true, decide_eq_true_eq] at ht
    rcases ht with ((h | h) | h) | h <;> subst h <;> decide
  refine ⟨h1, ?_, ?_⟩
  · intro t hn
    cases hv : IsValidJobType t with
    | false => rfl
    | true =>
        have hs := h1 t hv
        rw [hn] at hs
        simp at hs
  · intro env job execution hv
    obtain ⟨ex, hex⟩ := Option.isSome_iff_exists.mp (h1 job.jobType hv)
    simp [executeJobWithContext, hex]

/-- Witness for C10 at the health-check kind. -/
theorem C10_witness :
    (newJobExecutorRegistry JobTypeHealthCheck).isSome = true ∧
    (executeJobWithContext newJobExecutorRegistry benignExecEnv sampleJob
      sampleExecution).unknownKindBranch = false :=
  ⟨(C10_registry_covers_valid_kinds).1 JobTypeHealthCheck (by decide),
   (C10_registry_covers_valid_kinds).2.2 benignExecEnv sampleJob sampleExecution
     (by decide)⟩

end JobSchedulerModel
